import Mathlib

/-!
Verification of the Data-Quality-Auditor client console.

This file shallowly embeds the report-derivation layer (`allIssues` and
`issueIndicators` from `AuditReportView`), the comparison handler
(`handleCompare` from `ComparisonView`), and the configuration-editing
helpers (`updateSchemaField`, `removeSchemaField`, `removeRule`, and the
allowed-values input handler from `AuditConfigForm`), together with the
pieces of JavaScript runtime behaviour they rely on (`parseInt`,
`localeCompare`, stable `Array.prototype.sort`, object spread, and
out-of-bounds array writes).

Modelling conventions:
 * JavaScript numbers are modelled as exact `Nat`/`Int`/`Rat` values;
   IEEE-754 rounding beyond 2^53 is out of scope.
 * Sample rows (`Record<string, string>`) are association lists in key
   insertion order; a missing key reads as `none` (JS `undefined`).
 * `String.prototype.localeCompare` is locale dependent; it is modelled
   as code-unit comparison, which agrees with the default collation on
   the digit strings and `"n/a"` row ids produced by this pipeline.
 * `Array.prototype.sort` is stable and, for a consistent comparator,
   sorts according to it (ES2019); it is modelled by `List.mergeSort`,
   which has exactly these properties.
-/

namespace DQ

/-- Severity levels shared by rules, derived issues and indicators. -/
inductive Severity where
  | info
  | warning
  | error
deriving DecidableEq, Repr

/-- A sample row: a JS `Record<string, string>` in key insertion order. -/
abbrev Row := List (String × String)

/-- Reading `row[key]` on a JS record: first binding wins, absent keys give `none`. -/
def rowLookup (row : Row) (key : String) : Option String :=
  (row.find? (fun kv => kv.1 == key)).map (fun kv => kv.2)

/-- JS truthiness test `!sample[col]` on a string-valued record field:
`undefined` and the empty string are falsy, every other string is truthy. -/
def jsFalsy : Option String → Bool
  | none => true
  | some v => v == ""

/-- Row id extraction `enrichedSample.__line__ ?? "n/a"`. -/
def lineOf (row : Row) : String :=
  (rowLookup row "__line__").getD "n/a"

/-- Hex digit used by the `\u00XX` escapes of `JSON.stringify`. -/
def jsonHexDigit (n : Nat) : Char :=
  if n < 10 then Char.ofNat (48 + n) else Char.ofNat (87 + n)

/-- Escaping of one character inside a JSON string literal, as done by
`JSON.stringify` for the relevant ASCII control characters. -/
def jsonEscapeChar (c : Char) : String :=
  if c = '"' then "\\\""
  else if c = '\\' then "\\\\"
  else if c = '\n' then "\\n"
  else if c = '\t' then "\\t"
  else if c = '\r' then "\\r"
  else if c = '\x08' then "\\b"
  else if c = '\x0c' then "\\f"
  else if c.toNat < 32 then
    "\\u00" ++ String.singleton (jsonHexDigit (c.toNat / 16)) ++
      String.singleton (jsonHexDigit (c.toNat % 16))
  else String.singleton c

/-- JSON rendering of a string literal. -/
def jsonQuote (s : String) : String :=
  "\"" ++ String.join (s.toList.map jsonEscapeChar) ++ "\""

/-- Model of `JSON.stringify(sample)` for a flat string record:
keys in insertion order, no extra whitespace. -/
def jsonStringify (row : Row) : String :=
  "\x7b" ++ String.intercalate "," (row.map (fun kv => jsonQuote kv.1 ++ ":" ++ jsonQuote kv.2)) ++ "\x7d"

/-- Model of JS `Number.prototype.toFixed(1)` on the exact rational value:
round to the nearest tenth, ties towards the larger value, then render with
one decimal. The percentages rendered by the console are nonnegative. -/
def toFixed1 (q : Rat) : String :=
  let n : Int := Rat.floor (q * 10 + 1 / 2)
  let sign := if n < 0 then "-" else ""
  let m := n.natAbs
  sign ++ Nat.repr (m / 10) ++ "." ++ Nat.repr (m % 10)

/-- Outcome of one schema check in a report. -/
inductive SchemaStatus where
  | ok
  | missing
  | type_mismatch
deriving DecidableEq, Repr

/-- One entry of `report.schema_results`. -/
structure SchemaResult where
  field : String
  expected_dtype : String
  actual_dtype : Option String
  status : SchemaStatus
deriving DecidableEq, Repr

/-- One entry of `report.missing_values`. The TypeScript interface declares
only `column`, `missing_count` and `missing_pct`; the view additionally reads
an optional runtime field `sample_rows` (documented in the data model), so it
is modelled here as an optional list. -/
structure MissingValueStat where
  column : String
  missing_count : Nat
  missing_pct : Rat
  sample_rows : Option (List Row)
deriving DecidableEq, Repr

/-- One entry of `report.rule_results`. `sample_rows` is optional at runtime:
the view guards on its truthiness before iterating. -/
structure RuleResult where
  name : String
  severity : Severity
  passed : Bool
  failing_rows : Nat
  sample_rows : Option (List Row)
  description : Option String
deriving DecidableEq, Repr

/-- The optional `report.primary_key_result` section read by the view. -/
structure PrimaryKeyResult where
  columns : List String
  duplicate_count : Nat
  null_count : Nat
  sample_rows : List Row
deriving DecidableEq, Repr

/-- The `report.summary` block. -/
structure AuditSummary where
  dataset_name : String
  row_count : Nat
  column_count : Nat
  created_at : String
  engine_used : String
  issues_found : Int
deriving DecidableEq, Repr

/-- An audit report as consumed by the derivation layer. -/
structure AuditReport where
  id : String
  summary : AuditSummary
  schema_results : List SchemaResult
  missing_values : List MissingValueStat
  rule_results : List RuleResult
  primary_key_result : Option PrimaryKeyResult
  sample_rows : List Row
deriving DecidableEq, Repr

/-- One row of the derived issue log. -/
structure DerivedIssue where
  rowId : String
  value : String
  errorType : String
  ruleOrColumn : String
  severity : Severity
deriving DecidableEq, Repr

/-- One coarse indicator entry. -/
structure Indicator where
  label : String
  detail : String
  severity : Severity
deriving DecidableEq, Repr

/-- Issues emitted for one rule result (`AuditReportView`, step 1):
a failed rule contributes one issue per attached sample row; an absent
`sample_rows` is falsy and contributes nothing. -/
def ruleIssues (rule : RuleResult) : List DerivedIssue :=
  if rule.passed then []
  else
    match rule.sample_rows with
    | none => []
    | some rows =>
        rows.map (fun s =>
          { rowId := lineOf s
            value := jsonStringify s
            errorType := "Rule Failed"
            ruleOrColumn := rule.name
            severity := rule.severity })

/-- Issues emitted for one missing-value entry (`AuditReportView`, step 2). -/
def missingIssues (mv : MissingValueStat) : List DerivedIssue :=
  if mv.missing_count > 0 then
    match mv.sample_rows with
    | none => []
    | some rows =>
        rows.map (fun s =>
          { rowId := lineOf s
            value := "NULL / Empty"
            errorType := "Missing Value"
            ruleOrColumn := mv.column
            severity := if mv.missing_pct > 10 then .error else .warning })
  else []

/-- Issues emitted for the primary-key section (`AuditReportView`, step 3). -/
def pkIssues (pk : PrimaryKeyResult) : List DerivedIssue :=
  pk.sample_rows.map (fun s =>
    let isNull := pk.columns.any (fun col => jsFalsy (rowLookup s col))
    { rowId := lineOf s
      value := jsonStringify s
      errorType := if isNull then "PK Null" else "PK Duplicate"
      ruleOrColumn := String.intercalate ", " pk.columns
      severity := .error })

/-- The issues pushed into the `issues` array, in emission order:
rule failures, then missing values, then primary-key issues. -/
def emittedIssues (report : AuditReport) : List DerivedIssue :=
  report.rule_results.flatMap ruleIssues ++
  report.missing_values.flatMap missingIssues ++
  (match report.primary_key_result with
   | none => []
   | some pk => pkIssues pk)

/-- JS `StrWhiteSpaceChar` membership, restricted to the ASCII white space
and line-terminator characters (the Unicode space characters are not
produced by this pipeline). -/
def jsWhitespace (c : Char) : Bool :=
  c = ' ' || c = '\t' || c = '\n' || c = '\r' || c = '\x0b' || c = '\x0c'

/-- Radix-10 digit test. -/
def isDigit10 (c : Char) : Bool :=
  '0' ≤ c && c ≤ '9'

/-- Radix-16 digit test. -/
def isDigit16 (c : Char) : Bool :=
  isDigit10 c || ('a' ≤ c && c ≤ 'f') || ('A' ≤ c && c ≤ 'F')

/-- Numeric value of a radix-16 (hence also radix-10) digit. -/
def digitVal (c : Char) : Nat :=
  if isDigit10 c then c.toNat - 48
  else if 'a' ≤ c && c ≤ 'f' then c.toNat - 87
  else c.toNat - 55

/-- Value of a digit list read in the given radix, most significant first. -/
def digitsVal (radix : Nat) (ds : List Char) : Nat :=
  ds.foldl (fun acc c => acc * radix + digitVal c) 0

/-- Step 4 of JS `parseInt`: take the longest digit prefix in the given
radix; an empty prefix yields NaN (`none`). -/
def parseIntDigits (sign : Int) (radix : Nat) (cs : List Char) : Option Int :=
  let ds := cs.takeWhile (fun c => if radix = 16 then isDigit16 c else isDigit10 c)
  if ds.isEmpty then none else some (sign * (digitsVal radix ds : Nat))

/-- Steps 3-4 of JS `parseInt` with an unspecified radix: a `0x`/`0X`
leader selects radix 16, otherwise radix 10. -/
def parseIntBody (sign : Int) (cs : List Char) : Option Int :=
  match cs with
  | c0 :: c1 :: rest =>
      if c0 = '0' && (c1 = 'x' || c1 = 'X') then parseIntDigits sign 16 rest
      else parseIntDigits sign 10 cs
  | _ => parseIntDigits sign 10 cs

/-- Step 2 of JS `parseInt`: an optional leading sign; an empty remainder
can only produce NaN. -/
def headSignSplit : List Char → Option Int
  | [] => none
  | c :: rest =>
      if c = '-' then parseIntBody (-1) rest
      else if c = '+' then parseIntBody 1 rest
      else parseIntBody 1 (c :: rest)

/-- Model of JS `parseInt(string)` (no radix argument): skip leading white
space, read an optional sign, honour a `0x` hex leader, then read the
longest digit prefix; `none` models NaN. -/
def jsParseInt (s : String) : Option Int :=
  headSignSplit (s.toList.dropWhile jsWhitespace)

/-- Three-way code-unit comparison of character lists. -/
def lexOrd : List Char → List Char → Ordering
  | [], [] => .eq
  | [], _ :: _ => .lt
  | _ :: _, [] => .gt
  | a :: as, b :: bs =>
      if a < b then .lt else if b < a then .gt else lexOrd as bs

/-- Model of `String.prototype.localeCompare`: code-unit comparison
returning a negative, zero or positive number (see the header note on the
locale approximation). -/
def localeCompare (a b : String) : Int :=
  match lexOrd a.toList b.toList with
  | .lt => -1
  | .eq => 0
  | .gt => 1

/-- The row-id comparison at the heart of the sort comparator: numeric when
both row ids `parseInt` to numbers, `localeCompare` otherwise. -/
def rowCompare (x y : String) : Int :=
  match jsParseInt x, jsParseInt y with
  | some rowA, some rowB => rowA - rowB
  | _, _ => localeCompare x y

/-- The comparator passed to `issues.sort`, comparing by `rowId`. -/
def issueCompare (a b : DerivedIssue) : Int :=
  rowCompare a.rowId b.rowId

/-- The nonstrict row-id order induced by the comparator. -/
def rowLe (x y : String) : Bool :=
  rowCompare x y ≤ 0

/-- The nonstrict order induced by `issueCompare`, as consumed by the
stable sort model. -/
def issueLe (a b : DerivedIssue) : Bool :=
  issueCompare a b ≤ 0

/-- The derived issue log `allIssues`: emission in source order followed by
the stable sort with `issueCompare` (`AuditReportView`). -/
def allIssues (report : AuditReport) : List DerivedIssue :=
  (emittedIssues report).mergeSort issueLe

/-- Indicators contributed by one schema result (`issueIndicators`). -/
def schemaIndicators (item : SchemaResult) : List Indicator :=
  match item.status with
  | .missing => [{ label := "Missing column", detail := item.field, severity := .error }]
  | .type_mismatch =>
      [{ label := "Type mismatch"
         detail := item.field ++ ": expected " ++ item.expected_dtype ++ ", found " ++
           (item.actual_dtype.getD "n/a")
         severity := .warning }]
  | .ok => []

/-- Indicators contributed by one missing-value entry (`issueIndicators`). -/
def missingIndicators (mv : MissingValueStat) : List Indicator :=
  if mv.missing_count > 0 then
    [{ label := "Missing data"
       detail := mv.column ++ ": " ++ toFixed1 mv.missing_pct ++ "%"
       severity := if mv.missing_pct > 10 then .error else .warning }]
  else []

/-- Indicators contributed by one rule result (`issueIndicators`). -/
def ruleIndicators (rule : RuleResult) : List Indicator :=
  if rule.passed then []
  else
    [{ label := "Rule failed"
       detail := rule.name ++ " (" ++ Nat.repr rule.failing_rows ++ " rows)"
       severity := rule.severity }]

/-- Indicators contributed by the primary-key section (`issueIndicators`). -/
def pkIndicators : Option PrimaryKeyResult → List Indicator
  | none => []
  | some pk =>
      (if pk.duplicate_count > 0 then
        [{ label := "PK duplicate", detail := Nat.repr pk.duplicate_count ++ " rows", severity := .error }]
      else []) ++
      (if pk.null_count > 0 then
        [{ label := "PK null", detail := Nat.repr pk.null_count ++ " rows", severity := .error }]
      else [])

/-- The indicator summary `issueIndicators`, in its fixed emission order:
schema results, missing values, rule results, primary key. -/
def issueIndicators (report : AuditReport) : List Indicator :=
  report.schema_results.flatMap schemaIndicators ++
  report.missing_values.flatMap missingIndicators ++
  report.rule_results.flatMap ruleIndicators ++
  pkIndicators report.primary_key_result

/-- A schema field as the JavaScript runtime object it is: every key may be
absent (`none`). The TypeScript interface marks `name`, `dtype` and
`nullable` as required, but the buggy out-of-bounds update path can create
objects carrying only the keys of the partial, so required keys are not
baked into the model. -/
structure SchemaField where
  name : Option String
  dtype : Option String
  nullable : Option Bool
  description : Option String
  min : Option Rat
  max : Option Rat
  allowed_values : Option (List String)
  regex : Option String
deriving DecidableEq, Repr

/-- The object `\x7b\x7d` with no keys: the spread of `undefined`, and the model
of a hole in a sparse JS array. -/
def emptyField : SchemaField :=
  { name := none, dtype := none, nullable := none, description := none
    min := none, max := none, allowed_values := none, regex := none }

/-- JS object spread `\x7b ...old, ...p \x7d`: keys present in `p` override `old`. -/
def mergeField (old p : SchemaField) : SchemaField :=
  { name := p.name <|> old.name
    dtype := p.dtype <|> old.dtype
    nullable := p.nullable <|> old.nullable
    description := p.description <|> old.description
    min := p.min <|> old.min
    max := p.max <|> old.max
    allowed_values := p.allowed_values <|> old.allowed_values
    regex := p.regex <|> old.regex }

/-- One validation rule of the configuration. -/
structure RuleDefinition where
  name : String
  expression : String
  severity : Severity
  description : Option String
deriving DecidableEq, Repr

/-- The audit configuration owned by the form. -/
structure AuditConfig where
  dataset_name : String
  primary_key : Option (List String)
  schema : List SchemaField
  rules : List RuleDefinition
deriving DecidableEq, Repr

/-- JS semantics of `next[index] = \x7b ...next[index], ...p \x7d` on a copy of the
array: in bounds it merges into the existing element; past the end it
extends the array, leaving holes (modelled as all-absent objects) between
the old end and `index`; a negative index stores a non-index property,
invisible to the array's elements, modelled as leaving the list unchanged. -/
def jsArrayMergeSet (l : List SchemaField) (index : Int) (p : SchemaField) : List SchemaField :=
  if h : 0 ≤ index ∧ index.toNat < l.length then
    l.set index.toNat (mergeField (l.get ⟨index.toNat, h.2⟩) p)
  else if index < 0 then l
  else l ++ List.replicate (index.toNat - l.length) emptyField ++ [mergeField emptyField p]

/-- The form's `updateSchemaField(index, field)` state update. -/
def updateSchemaField (cfg : AuditConfig) (index : Int) (p : SchemaField) : AuditConfig :=
  { cfg with schema := jsArrayMergeSet cfg.schema index p }

/-- The form's `removeSchemaField(index)`: `filter((_, idx) => idx !== index)`. -/
def removeSchemaField (cfg : AuditConfig) (index : Int) : AuditConfig :=
  { cfg with schema := (cfg.schema.enum.filter (fun x => (x.1 : Int) != index)).map (fun x => x.2) }

/-- The form's `removeRule(index)`: `filter((_, idx) => idx !== index)`. -/
def removeRule (cfg : AuditConfig) (index : Int) : AuditConfig :=
  { cfg with rules := (cfg.rules.enum.filter (fun x => (x.1 : Int) != index)).map (fun x => x.2) }

/-- Model of JS `String.prototype.split(",")` at the character level:
the empty string yields one empty token, and every comma starts a new
token. -/
def splitCommaList : List Char → List (List Char)
  | [] => [[]]
  | c :: rest =>
      if c = ',' then [] :: splitCommaList rest
      else
        match splitCommaList rest with
        | [] => [[c]]
        | t :: ts => (c :: t) :: ts

/-- JS `value.split(",")` on strings. -/
def jsSplitComma (s : String) : List String :=
  (splitCommaList s.toList).map String.mk

/-- Model of JS `String.prototype.trim()`: strip white space from both
ends (the ASCII white-space set of `jsWhitespace`). -/
def jsTrim (s : String) : String :=
  String.mk (((s.toList.dropWhile jsWhitespace).reverse.dropWhile jsWhitespace).reverse)

/-- The allowed-values `onChange` parsing:
`value.split(",").map(v => v.trim()).filter(Boolean)`. -/
def parseAllowedValues (raw : String) : List String :=
  ((jsSplitComma raw).map jsTrim).filter (fun t => t != "")

/-- The allowed-values input handler: parse the raw comma-separated text and
update the field at `index` with an `allowed_values`-only partial. -/
def allowedValuesInput (cfg : AuditConfig) (index : Int) (raw : String) : AuditConfig :=
  updateSchemaField cfg index { emptyField with allowed_values := some (parseAllowedValues raw) }

/-- Errors surfaced by the comparison handler: the validation guard message,
or a transport failure from fetching either report. -/
inductive CompareError where
  | validation (msg : String)
  | transport (msg : String)
deriving DecidableEq, Repr

/-- The `handleCompare` guard and fetch sequence (`ComparisonView`): both
selections must be present and distinct, then both reports are fetched and
either failure aborts the comparison. -/
def handleCompare (a b : Option String) (fetch : String → Except String AuditReport) :
    Except CompareError (AuditReport × AuditReport) :=
  match a, b with
  | some x, some y =>
      if x == y then .error (.validation "Choose two different reports to compare.")
      else
        match fetch x, fetch y with
        | .ok ra, .ok rb => .ok (ra, rb)
        | .error e, _ => .error (.transport e)
        | .ok _, .error e => .error (.transport e)
  | _, _ => .error (.validation "Choose two different reports to compare.")

/-- The delta shown by `ComparisonView`:
`comparison.b.summary.issues_found - comparison.a.summary.issues_found`. -/
def compareDelta (a b : AuditReport) : Int :=
  b.summary.issues_found - a.summary.issues_found

/-! ### Shared lemmas about the derivation pipeline -/

/-- The sorted issue log is a permutation of the emitted issues. -/
theorem allIssues_perm (report : AuditReport) :
    List.Perm (allIssues report) (emittedIssues report) :=
  List.mergeSort_perm _ _

/-- Every issue emitted for a rule has error type "Rule Failed". -/
theorem errorType_of_mem_ruleIssues {i : DerivedIssue} {rule : RuleResult}
    (h : i ∈ ruleIssues rule) : i.errorType = "Rule Failed" := by
  unfold ruleIssues at h
  split at h
  · simp at h
  · split at h
    · simp at h
    · obtain ⟨s, -, rfl⟩ := List.mem_map.1 h
      rfl

/-- Every issue emitted for a missing-value entry has error type "Missing Value". -/
theorem errorType_of_mem_missingIssues {i : DerivedIssue} {mv : MissingValueStat}
    (h : i ∈ missingIssues mv) : i.errorType = "Missing Value" := by
  unfold missingIssues at h
  split at h
  · split at h
    · simp at h
    · obtain ⟨s, -, rfl⟩ := List.mem_map.1 h
      rfl
  · simp at h

/-- Every issue emitted for the primary-key section has a PK error type. -/
theorem errorType_of_mem_pkIssues {i : DerivedIssue} {pk : PrimaryKeyResult}
    (h : i ∈ pkIssues pk) : i.errorType = "PK Null" ∨ i.errorType = "PK Duplicate" := by
  unfold pkIssues at h
  obtain ⟨s, -, rfl⟩ := List.mem_map.1 h
  by_cases hn : pk.columns.any (fun col => jsFalsy (rowLookup s col))
  · left
    simp [hn]
  · right
    simp [hn]

/-- Every indicator from a schema result is labelled "Missing column" or
"Type mismatch". -/
theorem label_of_mem_schemaIndicators {i : Indicator} {sr : SchemaResult}
    (h : i ∈ schemaIndicators sr) : i.label = "Missing column" ∨ i.label = "Type mismatch" := by
  unfold schemaIndicators at h
  split at h <;> simp at h <;> simp [h]

/-- Every indicator from a missing-value entry is labelled "Missing data". -/
theorem label_of_mem_missingIndicators {i : Indicator} {mv : MissingValueStat}
    (h : i ∈ missingIndicators mv) : i.label = "Missing data" := by
  unfold missingIndicators at h
  split at h <;> simp at h
  simp [h]

/-- Every indicator from a rule result is labelled "Rule failed". -/
theorem label_of_mem_ruleIndicators {i : Indicator} {rule : RuleResult}
    (h : i ∈ ruleIndicators rule) : i.label = "Rule failed" := by
  unfold ruleIndicators at h
  split at h <;> simp at h
  simp [h]

/-- Every indicator from the primary-key section is labelled "PK duplicate"
or "PK null". -/
theorem label_of_mem_pkIndicators {i : Indicator} {o : Option PrimaryKeyResult}
    (h : i ∈ pkIndicators o) : i.label = "PK duplicate" ∨ i.label = "PK null" := by
  unfold pkIndicators at h
  match o with
  | none => simp at h
  | some pk =>
      rw [List.mem_append] at h
      rcases h with h | h
      · split at h
        · simp at h
          simp [h]
        · simp at h
      · split at h
        · simp at h
          simp [h]
        · simp at h

/-! ### C2: primary-key issues -/

/-- C2: for every report whose primary_key_result is present, the issue log
contains exactly one PK-typed issue per primary-key sample row, with
ruleOrColumn the comma-joined key columns, severity always error, and error
type "PK Null" exactly when some key column's value in the row is falsy or
absent, "PK Duplicate" otherwise. -/
theorem C2_pk_issues (r : AuditReport) (pk : PrimaryKeyResult)
    (hpk : r.primary_key_result = some pk) :
    List.Perm
      ((allIssues r).filter
        (fun i => i.errorType == "PK Null" || i.errorType == "PK Duplicate"))
      (pk.sample_rows.map (fun s =>
        { rowId := lineOf s
          value := jsonStringify s
          errorType :=
            if pk.columns.any (fun col => jsFalsy (rowLookup s col)) then "PK Null"
            else "PK Duplicate"
          ruleOrColumn := String.intercalate ", " pk.columns
          severity := Severity.error })) := by
  have h1 := List.Perm.filter
    (fun i => i.errorType == "PK Null" || i.errorType == "PK Duplicate") (allIssues_perm r)
  have h2 : (emittedIssues r).filter
      (fun i => i.errorType == "PK Null" || i.errorType == "PK Duplicate") = pkIssues pk := by
    unfold emittedIssues
    rw [hpk, List.filter_append, List.filter_append]
    have hA : (r.rule_results.flatMap ruleIssues).filter
        (fun i => i.errorType == "PK Null" || i.errorType == "PK Duplicate") = [] := by
      rw [List.filter_eq_nil_iff]
      intro i hi
      obtain ⟨rule, -, hi⟩ := List.mem_flatMap.1 hi
      rw [errorType_of_mem_ruleIssues hi]
      decide
    have hB : (r.missing_values.flatMap missingIssues).filter
        (fun i => i.errorType == "PK Null" || i.errorType == "PK Duplicate") = [] := by
      rw [List.filter_eq_nil_iff]
      intro i hi
      obtain ⟨mv, -, hi⟩ := List.mem_flatMap.1 hi
      rw [errorType_of_mem_missingIssues hi]
      decide
    have hC : (pkIssues pk).filter
        (fun i => i.errorType == "PK Null" || i.errorType == "PK Duplicate") = pkIssues pk := by
      rw [List.filter_eq_self]
      intro i hi
      rcases errorType_of_mem_pkIssues hi with h | h <;> simp [h]
    rw [hA, hB, hC]
    rfl
  rw [h2] at h1
  simpa [pkIssues] using h1

/-- One primary-key sample row with an empty key value and one duplicate row. -/
def pkDemoResult : PrimaryKeyResult where
  columns := ["id", "region"]
  duplicate_count := 1
  null_count := 1
  sample_rows :=
    [[("__line__", "4"), ("id", ""), ("region", "east")],
     [("__line__", "2"), ("id", "7"), ("region", "east")]]

/-- Report carrying only the primary-key section. -/
def pkDemoReport : AuditReport where
  id := "rep-pk"
  summary :=
    { dataset_name := "ds", row_count := 5, column_count := 2
      created_at := "2024-01-01", engine_used := "pandas", issues_found := 2 }
  schema_results := []
  missing_values := []
  rule_results := []
  primary_key_result := some pkDemoResult
  sample_rows := []

/-- Witness for C2 at a concrete report with one null and one duplicate row. -/
theorem C2_pk_issues_witness :
    List.Perm
      ((allIssues pkDemoReport).filter
        (fun i => i.errorType == "PK Null" || i.errorType == "PK Duplicate"))
      (pkDemoResult.sample_rows.map (fun s =>
        { rowId := lineOf s
          value := jsonStringify s
          errorType :=
            if pkDemoResult.columns.any (fun col => jsFalsy (rowLookup s col)) then "PK Null"
            else "PK Duplicate"
          ruleOrColumn := String.intercalate ", " pkDemoResult.columns
          severity := Severity.error })) :=
  C2_pk_issues pkDemoReport pkDemoResult rfl

/-! ### C3: missing-value severity threshold -/

/-- C3: for every missing-value entry with a positive missing count, the
derived issues for its sample rows and its indicator both carry severity
error exactly when missing_pct exceeds 10, warning otherwise. -/
theorem C3_missing_severity (r : AuditReport) (mv : MissingValueStat)
    (hm : mv ∈ r.missing_values) (hc : mv.missing_count > 0) :
    (∀ rows s, mv.sample_rows = some rows → s ∈ rows →
      ({ rowId := lineOf s
         value := "NULL / Empty"
         errorType := "Missing Value"
         ruleOrColumn := mv.column
         severity := if mv.missing_pct > 10 then .error else .warning } : DerivedIssue)
        ∈ allIssues r) ∧
    ({ label := "Missing data"
       detail := mv.column ++ ": " ++ toFixed1 mv.missing_pct ++ "%"
       severity := if mv.missing_pct > 10 then .error else .warning } : Indicator)
      ∈ issueIndicators r ∧
    ((if mv.missing_pct > 10 then (Severity.error) else .warning) = .error ↔
      mv.missing_pct > 10) := by
  refine ⟨?_, ?_, ?_⟩
  · intro rows s hrows hs
    rw [(allIssues_perm r).mem_iff]
    unfold emittedIssues
    rw [List.append_assoc, List.mem_append]
    right
    rw [List.mem_append]
    left
    rw [List.mem_flatMap]
    refine ⟨mv, hm, ?_⟩
    unfold missingIssues
    rw [if_pos hc, hrows]
    exact List.mem_map_of_mem _ hs
  · unfold issueIndicators
    rw [List.append_assoc, List.append_assoc, List.mem_append]
    right
    rw [List.mem_append]
    left
    rw [List.mem_flatMap]
    refine ⟨mv, hm, ?_⟩
    unfold missingIndicators
    rw [if_pos hc]
    exact List.mem_singleton.2 rfl
  · by_cases h : mv.missing_pct > 10 <;> simp [h]

/-- A missing-value entry at 15.0 percent with one sample row. -/
def mvFifteen : MissingValueStat where
  column := "colX"
  missing_count := 3
  missing_pct := 15
  sample_rows := some [[("__line__", "9"), ("colX", "")]]

/-- A missing-value entry at 5.0 percent with one sample row. -/
def mvFive : MissingValueStat where
  column := "colY"
  missing_count := 1
  missing_pct := 5
  sample_rows := some [[("__line__", "2"), ("colY", "")]]

/-- Report carrying the 15.0 and 5.0 percent missing-value entries. -/
def mvDemoReport : AuditReport where
  id := "rep-mv"
  summary :=
    { dataset_name := "ds", row_count := 20, column_count := 2
      created_at := "2024-01-01", engine_used := "duckdb", issues_found := 4 }
  schema_results := []
  missing_values := [mvFifteen, mvFive]
  rule_results := []
  primary_key_result := none
  sample_rows := []

/-- Witness for C3: at 15.0 percent both the issue and the indicator carry
severity error; at 5.0 percent both carry warning. -/
theorem C3_missing_severity_witness :
    ((if (15 : Rat) > 10 then (Severity.error) else .warning) = .error) ∧
    ((if (5 : Rat) > 10 then (Severity.error) else .warning) = .warning) ∧
    ({ rowId := "9", value := "NULL / Empty", errorType := "Missing Value"
       ruleOrColumn := "colX"
       severity := if (15 : Rat) > 10 then .error else .warning } : DerivedIssue)
      ∈ allIssues mvDemoReport ∧
    ({ label := "Missing data", detail := "colX" ++ ": " ++ toFixed1 15 ++ "%"
       severity := if (15 : Rat) > 10 then .error else .warning } : Indicator)
      ∈ issueIndicators mvDemoReport ∧
    ({ rowId := "2", value := "NULL / Empty", errorType := "Missing Value"
       ruleOrColumn := "colY"
       severity := if (5 : Rat) > 10 then .error else .warning } : DerivedIssue)
      ∈ allIssues mvDemoReport ∧
    ({ label := "Missing data", detail := "colY" ++ ": " ++ toFixed1 5 ++ "%"
       severity := if (5 : Rat) > 10 then .error else .warning } : Indicator)
      ∈ issueIndicators mvDemoReport := by
  have h15 := C3_missing_severity mvDemoReport mvFifteen (by decide) (by decide)
  have h5 := C3_missing_severity mvDemoReport mvFive (by decide) (by decide)
  exact ⟨by decide, by decide,
    h15.1 _ [("__line__", "9"), ("colX", "")] rfl (by decide), h15.2.1,
    h5.1 _ [("__line__", "2"), ("colY", "")] rfl (by decide), h5.2.1⟩

/-! ### C4: failed rule without sample rows -/

/-- C4: a failed rule whose sample_rows list is absent or empty contributes
zero derived issues, while the indicator derivation emits exactly one
indicator for it, labelled "Rule failed" with the rule's name, failing-row
count and declared severity; in a report whose only rule result is that rule
the issue log has no "Rule Failed" entries at all and the indicator list has
exactly that one "Rule failed" entry. -/
theorem C4_failed_rule_no_samples (r : AuditReport) (rule : RuleResult)
    (hp : rule.passed = false)
    (hs : rule.sample_rows = none ∨ rule.sample_rows = some []) :
    ruleIssues rule = [] ∧
    ruleIndicators rule =
      [{ label := "Rule failed"
         detail := rule.name ++ " (" ++ Nat.repr rule.failing_rows ++ " rows)"
         severity := rule.severity }] ∧
    (rule ∈ r.rule_results →
      ({ label := "Rule failed"
         detail := rule.name ++ " (" ++ Nat.repr rule.failing_rows ++ " rows)"
         severity := rule.severity } : Indicator) ∈ issueIndicators r) ∧
    (r.rule_results = [rule] →
      (allIssues r).filter (fun i => i.errorType == "Rule Failed") = [] ∧
      (issueIndicators r).filter (fun i => i.label == "Rule failed") =
        [{ label := "Rule failed"
           detail := rule.name ++ " (" ++ Nat.repr rule.failing_rows ++ " rows)"
           severity := rule.severity }]) := by
  have hri : ruleIssues rule = [] := by
    unfold ruleIssues
    rw [hp]
    rcases hs with h | h <;> rw [h]
    · rfl
    · simp
  have hind : ruleIndicators rule =
      [{ label := "Rule failed"
         detail := rule.name ++ " (" ++ Nat.repr rule.failing_rows ++ " rows)"
         severity := rule.severity }] := by
    unfold ruleIndicators
    rw [hp]
    rfl
  refine ⟨hri, hind, ?_, ?_⟩
  · intro hmem
    unfold issueIndicators
    rw [List.append_assoc, List.append_assoc, List.mem_append]
    right
    rw [List.mem_append]
    right
    rw [List.mem_append]
    left
    rw [List.mem_flatMap]
    exact ⟨rule, hmem, by rw [hind]; exact List.mem_singleton.2 rfl⟩
  · intro hr
    constructor
    · have h1 := List.Perm.filter (fun i => i.errorType == "Rule Failed") (allIssues_perm r)
      have h2 : (emittedIssues r).filter (fun i => i.errorType == "Rule Failed") = [] := by
        unfold emittedIssues
        rw [hr]
        rw [List.filter_append, List.filter_append]
        have hA : ([rule].flatMap ruleIssues).filter
            (fun i => i.errorType == "Rule Failed") = [] := by
          simp [hri]
        have hB : (r.missing_values.flatMap missingIssues).filter
            (fun i => i.errorType == "Rule Failed") = [] := by
          rw [List.filter_eq_nil_iff]
          intro i hi
          obtain ⟨mv, -, hi⟩ := List.mem_flatMap.1 hi
          rw [errorType_of_mem_missingIssues hi]
          decide
        have hC : ((match r.primary_key_result with
            | none => []
            | some pk => pkIssues pk) : List DerivedIssue).filter
              (fun i => i.errorType == "Rule Failed") = [] := by
          match hcase : r.primary_key_result with
          | none => rfl
          | some pk =>
              rw [List.filter_eq_nil_iff]
              intro i hi
              rcases errorType_of_mem_pkIssues hi with h | h <;> rw [h] <;> decide
        rw [hA, hB, hC]
        rfl
      rw [h2] at h1
      exact h1.eq_nil
    · unfold issueIndicators
      rw [hr]
      rw [List.filter_append, List.filter_append, List.filter_append]
      have hA : (r.schema_results.flatMap schemaIndicators).filter
          (fun i => i.label == "Rule failed") = [] := by
        rw [List.filter_eq_nil_iff]
        intro i hi
        obtain ⟨sr, -, hi⟩ := List.mem_flatMap.1 hi
        rcases label_of_mem_schemaIndicators hi with h | h <;> rw [h] <;> decide
      have hB : (r.missing_values.flatMap missingIndicators).filter
          (fun i => i.label == "Rule failed") = [] := by
        rw [List.filter_eq_nil_iff]
        intro i hi
        obtain ⟨mv, -, hi⟩ := List.mem_flatMap.1 hi
        rw [label_of_mem_missingIndicators hi]
        decide
      have hC : (pkIndicators r.primary_key_result).filter
          (fun i => i.label == "Rule failed") = [] := by
        rw [List.filter_eq_nil_iff]
        intro i hi
        rcases label_of_mem_pkIndicators hi with h | h <;> rw [h] <;> decide
      have hD : ([rule].flatMap ruleIndicators).filter
          (fun i => i.label == "Rule failed") =
          [{ label := "Rule failed"
             detail := rule.name ++ " (" ++ Nat.repr rule.failing_rows ++ " rows)"
             severity := rule.severity }] := by
        simp [hind]
      rw [hA, hB, hC, hD]
      rfl

/-- A failed error-severity rule with an empty sample-row list. -/
def ruleNoSamples : RuleResult where
  name := "amount_positive"
  severity := .error
  passed := false
  failing_rows := 12
  sample_rows := some []
  description := none

/-- Report whose only rule result is the sampleless failed rule. -/
def ruleDemoReport : AuditReport where
  id := "rep-rule"
  summary :=
    { dataset_name := "ds", row_count := 50, column_count := 3
      created_at := "2024-01-01", engine_used := "pandas", issues_found := 12 }
  schema_results := []
  missing_values := []
  rule_results := [ruleNoSamples]
  primary_key_result := none
  sample_rows := []

/-- Witness for C4 at the concrete sampleless failed rule. -/
theorem C4_failed_rule_no_samples_witness :
    ruleIssues ruleNoSamples = [] ∧
    (allIssues ruleDemoReport).filter (fun i => i.errorType == "Rule Failed") = [] ∧
    (issueIndicators ruleDemoReport).filter (fun i => i.label == "Rule failed") =
      [{ label := "Rule failed"
         detail := "amount_positive" ++ " (" ++ Nat.repr 12 ++ " rows)"
         severity := Severity.error }] := by
  have h := C4_failed_rule_no_samples ruleDemoReport ruleNoSamples rfl (Or.inr rfl)
  exact ⟨h.1, (h.2.2.2 rfl).1, (h.2.2.2 rfl).2⟩

/-! ### C5: empty report sections -/

/-- Report whose only content is a schema result with status "missing". -/
def schemaOnlyReport : AuditReport where
  id := "rep-schema"
  summary :=
    { dataset_name := "ds", row_count := 3, column_count := 1
      created_at := "2024-01-01", engine_used := "pandas", issues_found := 1 }
  schema_results :=
    [{ field := "colA", expected_dtype := "string", actual_dtype := none, status := .missing }]
  missing_values := []
  rule_results := []
  primary_key_result := none
  sample_rows := []

/-- C5 is refuted: a report with empty missing_values, empty rule_results and
no primary_key_result, but with a schema result of status "missing", has an
empty issue log yet a nonempty indicator list, because the indicator
derivation also draws on schema_results. -/
theorem C5_counterexample :
    schemaOnlyReport.missing_values = [] ∧
    schemaOnlyReport.rule_results = [] ∧
    schemaOnlyReport.primary_key_result = none ∧
    allIssues schemaOnlyReport = [] ∧
    issueIndicators schemaOnlyReport =
      [{ label := "Missing column", detail := "colA", severity := .error }] ∧
    issueIndicators schemaOnlyReport ≠ [] := by
  refine ⟨rfl, rfl, rfl, ?_, by decide, by decide⟩
  have h : emittedIssues schemaOnlyReport = [] := by decide
  unfold allIssues
  rw [h]
  exact List.mergeSort_nil

/-- C5 (amended): a report with empty missing_values, empty rule_results, no
primary_key_result, and no schema result of status missing or type_mismatch
(every status is "ok") yields an empty issue log and an empty indicator
list. -/
theorem C5_amended (r : AuditReport) (hmv : r.missing_values = [])
    (hrr : r.rule_results = []) (hpk : r.primary_key_result = none)
    (hsr : ∀ sr ∈ r.schema_results, sr.status = SchemaStatus.ok) :
    allIssues r = [] ∧ issueIndicators r = [] := by
  constructor
  · unfold allIssues emittedIssues
    rw [hmv, hrr, hpk]
    simp
  · unfold issueIndicators
    rw [hmv, hrr, hpk]
    simp only [List.flatMap_nil, List.append_nil, pkIndicators]
    rw [List.flatMap_eq_nil_iff]
    intro sr hmem
    unfold schemaIndicators
    rw [hsr sr hmem]

/-- Report with no content in any section. -/
def blankReport : AuditReport where
  id := "rep-blank"
  summary :=
    { dataset_name := "ds", row_count := 0, column_count := 2
      created_at := "2024-01-01", engine_used := "pandas", issues_found := 0 }
  schema_results :=
    [{ field := "colA", expected_dtype := "string", actual_dtype := some "string", status := .ok }]
  missing_values := []
  rule_results := []
  primary_key_result := none
  sample_rows := []

/-- Witness for the amended C5 at a concrete report whose schema results are
all "ok". -/
theorem C5_amended_witness :
    allIssues blankReport = [] ∧ issueIndicators blankReport = [] :=
  C5_amended blankReport rfl rfl rfl (by decide)

/-! ### C6: update_schema_field bounds behaviour -/

/-- Error taxonomy position used by the specification for structural edits. -/
inductive EditError where
  | indexOutOfRange
deriving DecidableEq, Repr

/-- Modelled from the spec: `update_schema_field(index, partial)` merges the
partial into the field at the index and fails with IndexOutOfRange if the
index is out of bounds. This is the claimed behaviour, for comparison with
the implementation `updateSchemaField`. -/
def updateSchemaFieldSpec (cfg : AuditConfig) (index : Int) (p : SchemaField) :
    Except EditError AuditConfig :=
  if h : 0 ≤ index ∧ index.toNat < cfg.schema.length then
    .ok { cfg with
            schema := cfg.schema.set index.toNat
              (mergeField (cfg.schema.get ⟨index.toNat, h.2⟩) p) }
  else .error .indexOutOfRange

/-- A one-field configuration. -/
def demoCfg : AuditConfig where
  dataset_name := "uploaded_dataset"
  primary_key := some ["id"]
  schema :=
    [{ name := some "id", dtype := some "integer", nullable := some false
       description := none, min := none, max := none, allowed_values := none, regex := none }]
  rules := []

/-- A partial update carrying only a name. -/
def demoPartial : SchemaField :=
  { emptyField with name := some "renamed" }

/-- C6 is refuted: at index 3 on a one-field schema the spec demands an
IndexOutOfRange failure, but the implementation returns normally with the
schema silently extended to four entries. -/
theorem C6_counterexample :
    updateSchemaFieldSpec demoCfg 3 demoPartial = .error .indexOutOfRange ∧
    updateSchemaField demoCfg 3 demoPartial ≠ demoCfg ∧
    (updateSchemaField demoCfg 3 demoPartial).schema.length = 4 ∧
    (updateSchemaField demoCfg 3 demoPartial).schema[3]? = some demoPartial := by
  refine ⟨rfl, ?_, ?_, ?_⟩ <;> decide

/-- C6 (amended): in bounds, `updateSchemaField` merges the partial into the
field at the index; out of bounds it does not fail: a nonnegative index at or
past the end silently extends the schema with absent entries and places the
merged partial at the index, and a negative index leaves the configuration
unchanged. -/
theorem C6_amended (cfg : AuditConfig) (index : Int) (p : SchemaField) :
    (∀ h : index.toNat < cfg.schema.length, 0 ≤ index →
      (updateSchemaField cfg index p).schema =
        cfg.schema.set index.toNat (mergeField (cfg.schema.get ⟨index.toNat, h⟩) p)) ∧
    (0 ≤ index → cfg.schema.length ≤ index.toNat →
      (updateSchemaField cfg index p).schema.length = index.toNat + 1 ∧
      (updateSchemaField cfg index p).schema[index.toNat]? =
        some (mergeField emptyField p)) ∧
    (index < 0 → updateSchemaField cfg index p = cfg) := by
  refine ⟨?_, ?_, ?_⟩
  · intro h h0
    unfold updateSchemaField jsArrayMergeSet
    rw [dif_pos ⟨h0, h⟩]
  · intro h0 hlen
    have hnotin : ¬(0 ≤ index ∧ index.toNat < cfg.schema.length) := by
      intro hcon
      omega
    have hnotneg : ¬index < 0 := by omega
    unfold updateSchemaField jsArrayMergeSet
    rw [dif_neg hnotin, if_neg hnotneg]
    constructor
    · rw [List.length_append, List.length_append, List.length_replicate,
        List.length_singleton]
      omega
    · rw [List.append_assoc, List.getElem?_append_right hlen,
        List.getElem?_append_right (by rw [List.length_replicate]),
        List.length_replicate]
      have hz : index.toNat - cfg.schema.length - (index.toNat - cfg.schema.length) = 0 := by
        omega
      rw [hz]
      rfl
  · intro hneg
    have hnotin : ¬(0 ≤ index ∧ index.toNat < cfg.schema.length) := by
      intro hcon
      omega
    unfold updateSchemaField jsArrayMergeSet
    rw [dif_neg hnotin, if_pos hneg]

/-- Witness for the amended C6: an in-bounds merge, an out-of-bounds silent
extension, and a negative-index no-op, all on the one-field configuration. -/
theorem C6_amended_witness :
    (updateSchemaField demoCfg 0 demoPartial).schema =
      demoCfg.schema.set 0 (mergeField (demoCfg.schema.get ⟨0, by decide⟩) demoPartial) ∧
    ((updateSchemaField demoCfg 3 demoPartial).schema.length = 4 ∧
      (updateSchemaField demoCfg 3 demoPartial).schema[(3 : Int).toNat]? =
        some (mergeField emptyField demoPartial)) ∧
    updateSchemaField demoCfg (-1) demoPartial = demoCfg := by
  refine ⟨(C6_amended demoCfg 0 demoPartial).1 (by decide) (by decide), ?_, ?_⟩
  · exact (C6_amended demoCfg 3 demoPartial).2.1 (by decide) (by decide)
  · exact (C6_amended demoCfg (-1) demoPartial).2.2 (by decide)

/-! ### C7: comparison guard and delta -/

/-- C7: the comparison fails with the validation message when either
selection is absent or both identifiers are equal; with two distinct
successfully fetched reports it succeeds, and the displayed delta is report
B's issues_found minus report A's. -/
theorem C7_compare (a b : Option String) (fetch : String → Except String AuditReport) :
    ((a = none ∨ b = none ∨ a = b) →
      ∃ m, handleCompare a b fetch = .error (.validation m)) ∧
    (∀ x y ra rb, a = some x → b = some y → x ≠ y →
      fetch x = .ok ra → fetch y = .ok rb →
      handleCompare a b fetch = .ok (ra, rb) ∧
      compareDelta ra rb = rb.summary.issues_found - ra.summary.issues_found) := by
  constructor
  · intro h
    match a, b with
    | none, _ => exact ⟨_, rfl⟩
    | some x, none => exact ⟨_, rfl⟩
    | some x, some y =>
        have hxy : x = y := by
          rcases h with h | h | h
          · cases h
          · cases h
          · exact Option.some.inj h
        subst hxy
        refine ⟨"Choose two different reports to compare.", ?_⟩
        simp [handleCompare]
  · intro x y ra rb hax hby hxy hfx hfy
    subst hax
    subst hby
    refine ⟨?_, rfl⟩
    simp [handleCompare, hfx, hfy, hxy]

/-- Report A with five issues found. -/
def reportFive : AuditReport where
  id := "A"
  summary :=
    { dataset_name := "ds", row_count := 10, column_count := 2
      created_at := "2024-01-01", engine_used := "pandas", issues_found := 5 }
  schema_results := []
  missing_values := []
  rule_results := []
  primary_key_result := none
  sample_rows := []

/-- Report B with three issues found. -/
def reportThree : AuditReport where
  id := "B"
  summary :=
    { dataset_name := "ds", row_count := 10, column_count := 2
      created_at := "2024-01-02", engine_used := "pandas", issues_found := 3 }
  schema_results := []
  missing_values := []
  rule_results := []
  primary_key_result := none
  sample_rows := []

/-- A two-report store for the comparison demo. -/
def demoFetch : String → Except String AuditReport := fun rid =>
  if rid = "A" then .ok reportFive
  else if rid = "B" then .ok reportThree
  else .error "Report not found"

/-- Witness for C7: comparing the 5-issue and 3-issue reports gives delta -2,
and comparing a report with itself fails with the validation message. -/
theorem C7_compare_witness :
    (∃ m, handleCompare (some "A") (some "A") demoFetch = .error (.validation m)) ∧
    handleCompare (some "A") (some "B") demoFetch = .ok (reportFive, reportThree) ∧
    compareDelta reportFive reportThree = -2 := by
  have h1 := (C7_compare (some "A") (some "A") demoFetch).1 (Or.inr (Or.inr rfl))
  have h2 := (C7_compare (some "A") (some "B") demoFetch).2 "A" "B" reportFive reportThree
    rfl rfl (by decide) rfl rfl
  exact ⟨h1, h2.1, by rw [h2.2]; decide⟩

/-! ### C8: allowed-values parsing -/

/-- C8: updating allowed_values from a raw comma-separated string stores the
comma-split, trimmed, empty-discarded token list in the field at the index;
in particular "a, b ,, c" yields ["a", "b", "c"]. -/
theorem C8_allowed_values (cfg : AuditConfig) (index : Int) (raw : String)
    (h0 : 0 ≤ index) (hlen : index.toNat < cfg.schema.length) :
    (∃ f, (allowedValuesInput cfg index raw).schema[index.toNat]? = some f ∧
      f.allowed_values =
        some (((jsSplitComma raw).map jsTrim).filter (fun t => t != ""))) ∧
    parseAllowedValues "a, b ,, c" = ["a", "b", "c"] := by
  constructor
  · refine ⟨mergeField (cfg.schema.get ⟨index.toNat, hlen⟩)
      { emptyField with allowed_values := some (parseAllowedValues raw) }, ?_, rfl⟩
    unfold allowedValuesInput updateSchemaField jsArrayMergeSet
    rw [dif_pos ⟨h0, hlen⟩]
    exact List.getElem?_set_self hlen
  · decide

/-- Witness for C8 at the one-field configuration and the raw input
"a, b ,, c". -/
theorem C8_allowed_values_witness :
    (∃ f, (allowedValuesInput demoCfg 0 "a, b ,, c").schema[(0 : Int).toNat]? = some f ∧
      f.allowed_values =
        some (((jsSplitComma "a, b ,, c").map jsTrim).filter (fun t => t != ""))) ∧
    parseAllowedValues "a, b ,, c" = ["a", "b", "c"] :=
  C8_allowed_values demoCfg 0 "a, b ,, c" (by decide) (by decide)

/-! ### C9: out-of-range removal is a silent no-op -/

/-- Removing by an out-of-range position from an enumerated filter keeps the
whole list. -/
theorem enum_filter_ne_map_snd_of_oob {α : Type} (l : List α) (i : Int)
    (h : i < 0 ∨ (l.length : Int) ≤ i) :
    ((l.enum.filter (fun x => ((x.1 : Int) != i))).map (fun x => x.2)) = l := by
  have hfil : l.enum.filter (fun x => ((x.1 : Int) != i)) = l.enum := by
    rw [List.filter_eq_self]
    intro x hx
    have hlt : x.1 < l.length := by
      have := List.mem_enum_iff_getElem?.1 hx
      exact (List.getElem?_eq_some.1 this).1
    rw [bne_iff_ne]
    omega
  rw [hfil]
  exact List.enum_map_snd l

/-- C9: for every index outside [0, length), removeSchemaField and removeRule
return the configuration completely unchanged, with no error signalled. -/
theorem C9_remove_out_of_range (cfg : AuditConfig) (index : Int)
    (hs : index < 0 ∨ (cfg.schema.length : Int) ≤ index)
    (hr : index < 0 ∨ (cfg.rules.length : Int) ≤ index) :
    removeSchemaField cfg index = cfg ∧ removeRule cfg index = cfg := by
  constructor
  · unfold removeSchemaField
    rw [enum_filter_ne_map_snd_of_oob cfg.schema index hs]
  · unfold removeRule
    rw [enum_filter_ne_map_snd_of_oob cfg.rules index hr]

/-- Witness for C9: removing index 5 and index -2 from the one-field,
zero-rule configuration changes nothing. -/
theorem C9_remove_out_of_range_witness :
    (removeSchemaField demoCfg 5 = demoCfg ∧ removeRule demoCfg 5 = demoCfg) ∧
    (removeSchemaField demoCfg (-2) = demoCfg ∧ removeRule demoCfg (-2) = demoCfg) :=
  ⟨C9_remove_out_of_range demoCfg 5 (by decide) (by decide),
   C9_remove_out_of_range demoCfg (-2) (by decide) (by decide)⟩

/-! ### C10: in-bounds update frame -/

/-- C10: an in-bounds updateSchemaField keeps the schema length, every other
schema entry, and the dataset name, primary key and rules unchanged; the
targeted entry becomes the merge in which exactly the attributes present in
the partial are replaced and all absent attributes keep their old values. -/
theorem C10_update_frame (cfg : AuditConfig) (index : Int) (p : SchemaField)
    (h0 : 0 ≤ index) (hlen : index.toNat < cfg.schema.length) :
    (updateSchemaField cfg index p).dataset_name = cfg.dataset_name ∧
    (updateSchemaField cfg index p).primary_key = cfg.primary_key ∧
    (updateSchemaField cfg index p).rules = cfg.rules ∧
    (updateSchemaField cfg index p).schema.length = cfg.schema.length ∧
    (∀ j, j ≠ index.toNat →
      (updateSchemaField cfg index p).schema[j]? = cfg.schema[j]?) ∧
    (updateSchemaField cfg index p).schema[index.toNat]? =
      some (mergeField (cfg.schema.get ⟨index.toNat, hlen⟩) p) ∧
    (∀ old : SchemaField,
      (p.name = none → (mergeField old p).name = old.name) ∧
      (∀ v, p.name = some v → (mergeField old p).name = some v) ∧
      (p.dtype = none → (mergeField old p).dtype = old.dtype) ∧
      (∀ v, p.dtype = some v → (mergeField old p).dtype = some v) ∧
      (p.nullable = none → (mergeField old p).nullable = old.nullable) ∧
      (∀ v, p.nullable = some v → (mergeField old p).nullable = some v) ∧
      (p.description = none → (mergeField old p).description = old.description) ∧
      (∀ v, p.description = some v → (mergeField old p).description = some v) ∧
      (p.min = none → (mergeField old p).min = old.min) ∧
      (∀ v, p.min = some v → (mergeField old p).min = some v) ∧
      (p.max = none → (mergeField old p).max = old.max) ∧
      (∀ v, p.max = some v → (mergeField old p).max = some v) ∧
      (p.allowed_values = none → (mergeField old p).allowed_values = old.allowed_values) ∧
      (∀ v, p.allowed_values = some v → (mergeField old p).allowed_values = some v) ∧
      (p.regex = none → (mergeField old p).regex = old.regex) ∧
      (∀ v, p.regex = some v → (mergeField old p).regex = some v)) := by
  have hset : (updateSchemaField cfg index p).schema =
      cfg.schema.set index.toNat (mergeField (cfg.schema.get ⟨index.toNat, hlen⟩) p) := by
    unfold updateSchemaField jsArrayMergeSet
    rw [dif_pos ⟨h0, hlen⟩]
  refine ⟨rfl, rfl, rfl, ?_, ?_, ?_, ?_⟩
  · rw [hset]
    exact List.length_set ..
  · intro j hj
    rw [hset]
    exact List.getElem?_set_ne (fun h => hj h.symm)
  · rw [hset]
    rw [List.getElem?_set_self hlen]
  · intro old
    refine ⟨?_, ?_, ?_, ?_, ?_, ?_, ?_, ?_, ?_, ?_, ?_, ?_, ?_, ?_, ?_, ?_⟩ <;>
      first
        | (intro h; simp [mergeField, h])
        | (intro v h; simp [mergeField, h])

/-- Witness for C10: the in-bounds rename on the one-field configuration
keeps everything but the targeted attribute. -/
theorem C10_update_frame_witness :
    (updateSchemaField demoCfg 0 demoPartial).dataset_name = demoCfg.dataset_name ∧
    (updateSchemaField demoCfg 0 demoPartial).rules = demoCfg.rules ∧
    (updateSchemaField demoCfg 0 demoPartial).schema.length = demoCfg.schema.length ∧
    (updateSchemaField demoCfg 0 demoPartial).schema[(0 : Int).toNat]? =
      some (mergeField (demoCfg.schema.get ⟨(0 : Int).toNat, by decide⟩) demoPartial) := by
  have h := C10_update_frame demoCfg 0 demoPartial (by decide) (by decide)
  exact ⟨h.1, h.2.2.1, h.2.2.2.1, h.2.2.2.2.2.1⟩

/-! ### C1: the issue-log sort

The claim's reading of the comparator ("parses as a base-10 integer") and
the code's `parseInt` (which accepts any integer prefix) disagree, so the
claim is settled in two parts: a counterexample on a report with the row id
"12abc", and an amended sortedness-plus-stability theorem on reports whose
row ids are of the shapes the pipeline actually produces. -/

/-- A nonempty string of decimal digits only. -/
def allDigits (s : String) : Bool :=
  !s.toList.isEmpty && s.toList.all isDigit10

/-- Row ids on which the comparator is a total preorder: either a pure digit
string, or a string (possibly empty) that starts with no digit, no sign and
no white space — such as the default "n/a". On any other shapes (integer
prefixes like "12abc", signed or padded numbers, hex leaders) `parseInt`
and string comparison interleave inconsistently. -/
def canonRowId (s : String) : Bool :=
  allDigits s ||
    (match s.toList with
     | [] => true
     | c :: _ => !isDigit10 c && !(c = '+') && !(c = '-') && !jsWhitespace c)

/-- Modelled from the claim's words: a string that parses as a base-10
integer in its entirety, with an optional leading sign. -/
def specIsInt (s : String) : Bool :=
  match s.toList with
  | [] => false
  | c :: rest =>
      if c = '-' || c = '+' then !rest.isEmpty && rest.all isDigit10
      else isDigit10 c && rest.all isDigit10

/-- Modelled from the claim's words: the value of a string that parses as a
base-10 integer. -/
def specIntVal (s : String) : Int :=
  match s.toList with
  | [] => 0
  | c :: rest =>
      if c = '-' then -((digitsVal 10 rest : Nat) : Int)
      else if c = '+' then ((digitsVal 10 rest : Nat) : Int)
      else ((digitsVal 10 (c :: rest) : Nat) : Int)

/-- Modelled from the claim's words: the claimed row-id order — numeric when
both operands parse as base-10 integers, lexicographic otherwise (also for
mixed numeric/non-numeric pairs). -/
def claimRowLe (x y : String) : Bool :=
  if specIsInt x && specIsInt y then decide (specIntVal x ≤ specIntVal y)
  else lexOrd x.toList y.toList != Ordering.gt

/-- Code-unit comparison is reflexive. -/
theorem lexOrd_self : ∀ cs : List Char, lexOrd cs cs = .eq
  | [] => rfl
  | c :: cs => by
      simp [lexOrd, lt_irrefl, lexOrd_self cs]

/-- Swapping the operands of a code-unit comparison swaps the outcome. -/
theorem lexOrd_swap : ∀ a b : List Char, lexOrd b a = (lexOrd a b).swap
  | [], [] => rfl
  | [], _ :: _ => rfl
  | _ :: _, [] => rfl
  | x :: xs, y :: ys => by
      rcases lt_trichotomy x y with h | h | h
      · simp [lexOrd, h, lt_asymm h, Ordering.swap]
      · subst h
        simp [lexOrd, lt_irrefl, lexOrd_swap xs ys]
      · simp [lexOrd, h, lt_asymm h, Ordering.swap]

/-- A smaller head decides the code-unit comparison. -/
theorem lexOrd_cons_lt {x y : Char} (h : x < y) (xs ys : List Char) :
    lexOrd (x :: xs) (y :: ys) = .lt := by
  simp [lexOrd, h]

/-- A larger head decides the code-unit comparison. -/
theorem lexOrd_cons_gt {x y : Char} (h : y < x) (xs ys : List Char) :
    lexOrd (x :: xs) (y :: ys) = .gt := by
  simp [lexOrd, h, lt_asymm h]

/-- Code-unit comparison is transitive in its nonstrict reading. -/
theorem lexOrd_trans_not_gt :
    ∀ a b c : List Char, lexOrd a b ≠ .gt → lexOrd b c ≠ .gt → lexOrd a c ≠ .gt
  | [], _, [], _, _ => by simp [lexOrd]
  | [], _, _ :: _, _, _ => by simp [lexOrd]
  | _ :: _, [], _, h1, _ => absurd rfl h1
  | _ :: _, _ :: _, [], _, h2 => absurd rfl h2
  | x :: xs, y :: ys, z :: zs, h1, h2 => by
      by_cases hxy : x < y
      · by_cases hyz : y < z
        · rw [lexOrd_cons_lt (lt_trans hxy hyz)]
          simp
        · by_cases hzy : z < y
          · exact absurd (lexOrd_cons_gt hzy ys zs) h2
          · have hyzeq : y = z := le_antisymm (le_of_not_lt hzy) (le_of_not_lt hyz)
            subst hyzeq
            rw [lexOrd_cons_lt hxy]
            simp
      · by_cases hyx : y < x
        · exact absurd (lexOrd_cons_gt hyx xs ys) h1
        · have hxyeq : x = y := le_antisymm (le_of_not_lt hyx) (le_of_not_lt hxy)
          subst hxyeq
          by_cases hxz : x < z
          · rw [lexOrd_cons_lt hxz]
            simp
          · by_cases hzx : z < x
            · exact absurd (lexOrd_cons_gt hzx ys zs) h2
            · have hxzeq : x = z := le_antisymm (le_of_not_lt hzx) (le_of_not_lt hxz)
              subst hxzeq
              simp only [lexOrd, lt_irrefl, if_neg (lt_irrefl x)] at h1 h2 ⊢
              exact lexOrd_trans_not_gt xs ys zs (by simpa using h1) (by simpa using h2)

/-- A list all of whose elements satisfy the predicate is its own longest
matching prefix. -/
theorem takeWhile_all {α : Type} {p : α → Bool} :
    ∀ {l : List α}, l.all p = true → l.takeWhile p = l
  | [], _ => rfl
  | a :: l, h => by
      rw [List.all_cons, Bool.and_eq_true] at h
      rw [List.takeWhile_cons, if_pos h.1, takeWhile_all h.2]

/-- Unfolding of the decimal digit test. -/
theorem isDigit10_iff {c : Char} : isDigit10 c = true ↔ ('0' ≤ c ∧ c ≤ '9') := by
  simp [isDigit10]

/-- A decimal digit is not one of the characters failing the digit test. -/
theorem digit_ne {c : Char} (h : isDigit10 c = true) {d : Char}
    (hd : isDigit10 d = false) : c ≠ d := by
  intro he
  subst he
  rw [h] at hd
  cases hd

/-- A decimal digit is not white space. -/
theorem jsWhitespace_eq_false_of_digit {c : Char} (h : isDigit10 c = true) :
    jsWhitespace c = false := by
  cases hws : jsWhitespace c
  · rfl
  · exfalso
    unfold jsWhitespace at hws
    simp only [Bool.or_eq_true, decide_eq_true_eq] at hws
    rcases hws with ((((rfl | rfl) | rfl) | rfl) | rfl) | rfl <;> exact absurd h (by decide)

/-- A character failing the digit test lies below '0' or above '9'. -/
theorem lt_or_gt_of_not_digit {c : Char} (h : isDigit10 c = false) :
    c < '0' ∨ '9' < c := by
  by_contra hcon
  push_neg at hcon
  have := isDigit10_iff.2 hcon
  rw [h] at this
  cases this

/-- On a pure digit string, `parseInt` succeeds with the decimal value of
the whole string. -/
theorem jsParseInt_of_allDigits {s : String} (h : allDigits s = true) :
    jsParseInt s = some ((digitsVal 10 s.toList : Nat) : Int) := by
  unfold allDigits at h
  rw [Bool.and_eq_true] at h
  obtain ⟨hne, hall⟩ := h
  match hsl : s.toList with
  | [] => rw [hsl] at hne; simp at hne
  | c :: rest =>
      rw [hsl] at hall
      rw [List.all_cons, Bool.and_eq_true] at hall
      obtain ⟨hc, hrest⟩ := hall
      unfold jsParseInt
      rw [hsl, List.dropWhile_cons,
        if_neg (by rw [jsWhitespace_eq_false_of_digit hc]; exact Bool.false_ne_true)]
      simp only [headSignSplit]
      rw [if_neg (digit_ne hc (by decide)), if_neg (digit_ne hc (by decide))]
      have hdig : (c :: rest).takeWhile isDigit10 = c :: rest := by
        apply takeWhile_all
        rw [List.all_cons, Bool.and_eq_true]
        exact ⟨hc, hrest⟩
      match rest with
      | [] =>
          show parseIntDigits 1 10 [c] = _
          simp only [parseIntDigits]
          rw [show (fun ch => if (10 : Nat) = 16 then isDigit16 ch else isDigit10 ch)
              = isDigit10 from by funext ch; simp]
          rw [hdig]
          simp
      | c1 :: rest' =>
          rw [List.all_cons, Bool.and_eq_true] at hrest
          show parseIntBody 1 (c :: c1 :: rest') = _
          simp only [parseIntBody]
          rw [if_neg (by
            intro hcontra
            simp only [Bool.and_eq_true, Bool.or_eq_true, decide_eq_true_eq] at hcontra
            rcases hcontra.2 with rfl | rfl <;> exact absurd hrest.1 (by decide))]
          simp only [parseIntDigits]
          rw [show (fun ch => if (10 : Nat) = 16 then isDigit16 ch else isDigit10 ch)
              = isDigit10 from by funext ch; simp]
          rw [hdig]
          simp

/-- On a canonical row id that is not a pure digit string, `parseInt`
yields NaN. -/
theorem jsParseInt_eq_none_of_canon {s : String} (hc : canonRowId s = true)
    (hnd : allDigits s = false) : jsParseInt s = none := by
  unfold canonRowId at hc
  rw [Bool.or_eq_true] at hc
  rcases hc with hc | hc
  · rw [hnd] at hc; cases hc
  · match hsl : s.toList with
    | [] =>
        unfold jsParseInt
        rw [hsl]
        rfl
    | c :: rest =>
        rw [hsl] at hc
        simp only [Bool.and_eq_true, Bool.not_eq_true'] at hc
        obtain ⟨⟨⟨hd, hplus⟩, hminus⟩, hw⟩ := hc
        rw [decide_eq_false_iff_not] at hplus hminus
        unfold jsParseInt
        rw [hsl, List.dropWhile_cons, if_neg (by rw [hw]; exact Bool.false_ne_true)]
        simp only [headSignSplit]
        rw [if_neg hminus, if_neg hplus]
        have htw : (c :: rest).takeWhile isDigit10 = [] := by
          rw [List.takeWhile_cons, if_neg (by rw [hd]; exact Bool.false_ne_true)]
        match rest with
        | [] =>
            show parseIntDigits 1 10 [c] = _
            simp only [parseIntDigits]
            rw [show (fun ch => if (10 : Nat) = 16 then isDigit16 ch else isDigit10 ch)
                = isDigit10 from by funext ch; simp]
            rw [htw]
            simp
        | c1 :: rest' =>
            show parseIntBody 1 (c :: c1 :: rest') = _
            simp only [parseIntBody]
            rw [if_neg (by
              intro hcontra
              simp only [Bool.and_eq_true, Bool.or_eq_true, decide_eq_true_eq] at hcontra
              rw [hcontra.1] at hd
              exact absurd hd (by decide))]
            simp only [parseIntDigits]
            rw [show (fun ch => if (10 : Nat) = 16 then isDigit16 ch else isDigit10 ch)
                = isDigit10 from by funext ch; simp]
            rw [htw]
            simp

/-- A pure digit string starts with a digit. -/
theorem allDigits_shape {s : String} (h : allDigits s = true) :
    ∃ d rest, s.toList = d :: rest ∧ '0' ≤ d ∧ d ≤ '9' := by
  unfold allDigits at h
  rw [Bool.and_eq_true] at h
  obtain ⟨hne, hall⟩ := h
  match hsl : s.toList with
  | [] => rw [hsl] at hne; simp at hne
  | d :: rest =>
      rw [hsl, List.all_cons, Bool.and_eq_true] at hall
      exact ⟨d, rest, rfl, isDigit10_iff.1 hall.1⟩

/-- A canonical row id that is not a pure digit string is empty or starts
strictly below '0' or strictly above '9'. -/
theorem canon_nondigit_shape {s : String} (hc : canonRowId s = true)
    (hnd : allDigits s = false) :
    s.toList = [] ∨
      ∃ f rest, s.toList = f :: rest ∧ f ≠ '+' ∧ f ≠ '-' ∧ (f < '0' ∨ '9' < f) := by
  unfold canonRowId at hc
  rw [Bool.or_eq_true] at hc
  rcases hc with hc | hc
  · rw [hnd] at hc; cases hc
  · match hsl : s.toList with
    | [] => exact Or.inl rfl
    | c :: rest =>
        rw [hsl] at hc
        simp only [Bool.and_eq_true, Bool.not_eq_true'] at hc
        obtain ⟨⟨⟨hd, hplus⟩, hminus⟩, -⟩ := hc
        rw [decide_eq_false_iff_not] at hplus hminus
        exact Or.inr ⟨c, rest, rfl, hplus, hminus, lt_or_gt_of_not_digit hd⟩

/-- Unfolding of the nonstrict reading of a three-way comparison. -/
theorem bne_gt_iff {o : Ordering} : (o != Ordering.gt) = true ↔ o ≠ Ordering.gt := by
  cases o <;> decide

/-- Comparator reduction when both row ids are pure digit strings. -/
theorem rowLe_of_both_digits {x y : String} (hx : allDigits x = true)
    (hy : allDigits y = true) :
    rowLe x y =
      decide (((digitsVal 10 x.toList : Nat) : Int) ≤ ((digitsVal 10 y.toList : Nat) : Int)) := by
  unfold rowLe rowCompare
  rw [jsParseInt_of_allDigits hx, jsParseInt_of_allDigits hy]
  simp [sub_nonpos]

/-- Comparator reduction when the left row id fails to parse. -/
theorem rowLe_lex_of_left_none {x y : String} (hx : jsParseInt x = none) :
    rowLe x y = (lexOrd x.toList y.toList != Ordering.gt) := by
  simp only [rowLe, rowCompare, hx]
  unfold localeCompare
  cases h : lexOrd x.toList y.toList <;> decide

/-- Comparator reduction when the right row id fails to parse. -/
theorem rowLe_lex_of_right_none {x y : String} (hy : jsParseInt y = none) :
    rowLe x y = (lexOrd x.toList y.toList != Ordering.gt) := by
  cases hx : jsParseInt x
  · exact rowLe_lex_of_left_none hx
  · simp only [rowLe, rowCompare, hx, hy]
    unfold localeCompare
    cases h : lexOrd x.toList y.toList <;> decide

/-- The comparator order is reflexive. -/
theorem rowLe_refl (x : String) : rowLe x x = true := by
  unfold rowLe rowCompare
  cases hx : jsParseInt x
  · simp [localeCompare, lexOrd_self]
  · simp

/-- The comparator order is total on all strings. -/
theorem rowLe_total (x y : String) : (rowLe x y || rowLe y x) = true := by
  rw [Bool.or_eq_true]
  by_cases hx : ∃ v, jsParseInt x = some v
  · by_cases hy : ∃ w, jsParseInt y = some w
    · obtain ⟨v, hv⟩ := hx
      obtain ⟨w, hw⟩ := hy
      unfold rowLe rowCompare
      rw [hv, hw]
      rcases le_total v w with h | h
      · left; simp; omega
      · right; simp; omega
    · have hy' : jsParseInt y = none := by
        cases h : jsParseInt y
        · rfl
        · exact absurd ⟨_, h⟩ hy
      rw [rowLe_lex_of_right_none hy', rowLe_lex_of_left_none hy']
      cases h : lexOrd x.toList y.toList
      · left; decide
      · left; decide
      · right
        rw [lexOrd_swap x.toList y.toList, h]
        decide
  · have hx' : jsParseInt x = none := by
      cases h : jsParseInt x
      · rfl
      · exact absurd ⟨_, h⟩ hx
    rw [rowLe_lex_of_left_none hx', rowLe_lex_of_right_none hx']
    cases h : lexOrd x.toList y.toList
    · left; decide
    · left; decide
    · right
      rw [lexOrd_swap x.toList y.toList, h]
      decide

/-- The comparator order is transitive on canonical row ids. -/
theorem rowLe_trans_canon {x y z : String} (hx : canonRowId x = true)
    (hy : canonRowId y = true) (hz : canonRowId z = true)
    (h1 : rowLe x y = true) (h2 : rowLe y z = true) : rowLe x z = true := by
  cases hax : allDigits x <;> cases hay : allDigits y <;> cases haz : allDigits z
  · -- none of the three is numeric: all comparisons are lexicographic
    rw [rowLe_lex_of_left_none (jsParseInt_eq_none_of_canon hx hax)] at h1 ⊢
    rw [rowLe_lex_of_left_none (jsParseInt_eq_none_of_canon hy hay)] at h2
    rw [bne_gt_iff] at h1 h2 ⊢
    exact lexOrd_trans_not_gt _ _ _ h1 h2
  · -- x, y lexicographic; y, z lexicographic; x, z lexicographic
    rw [rowLe_lex_of_left_none (jsParseInt_eq_none_of_canon hx hax)] at h1 ⊢
    rw [rowLe_lex_of_left_none (jsParseInt_eq_none_of_canon hy hay)] at h2
    rw [bne_gt_iff] at h1 h2 ⊢
    exact lexOrd_trans_not_gt _ _ _ h1 h2
  · -- y numeric between two non-numeric operands: still lexicographic
    rw [rowLe_lex_of_left_none (jsParseInt_eq_none_of_canon hx hax)] at h1 ⊢
    rw [rowLe_lex_of_right_none (jsParseInt_eq_none_of_canon hz haz)] at h2
    rw [bne_gt_iff] at h1 h2 ⊢
    exact lexOrd_trans_not_gt _ _ _ h1 h2
  · -- x non-numeric, y and z numeric: the head of x decides
    rw [rowLe_lex_of_left_none (jsParseInt_eq_none_of_canon hx hax)] at h1 ⊢
    rw [bne_gt_iff] at h1 ⊢
    obtain ⟨dy, ys, hyl, hy0, hy9⟩ := allDigits_shape hay
    obtain ⟨dz, zs, hzl, hz0, hz9⟩ := allDigits_shape haz
    rcases canon_nondigit_shape hx hax with hxl | ⟨f, fs, hxl, -, -, hf⟩
    · rw [hxl, hzl]
      simp [lexOrd]
    · rcases hf with hf | hf
      · rw [hxl, hzl, lexOrd_cons_lt (lt_of_lt_of_le hf hz0)]
        simp
      · rw [hxl, hyl, lexOrd_cons_gt (lt_of_le_of_lt hy9 hf)] at h1
        exact absurd rfl h1
  · -- x, y lexicographic via z? x numeric, y and z non-numeric
    rw [rowLe_lex_of_right_none (jsParseInt_eq_none_of_canon hy hay)] at h1
    rw [rowLe_lex_of_left_none (jsParseInt_eq_none_of_canon hy hay)] at h2
    rw [rowLe_lex_of_right_none (jsParseInt_eq_none_of_canon hz haz)]
    rw [bne_gt_iff] at h1 h2 ⊢
    exact lexOrd_trans_not_gt _ _ _ h1 h2
  · -- x and z numeric, y non-numeric: every path is contradictory
    rw [rowLe_lex_of_right_none (jsParseInt_eq_none_of_canon hy hay)] at h1
    rw [rowLe_lex_of_left_none (jsParseInt_eq_none_of_canon hy hay)] at h2
    rw [bne_gt_iff] at h1 h2
    obtain ⟨dx, xs, hxl, hx0, hx9⟩ := allDigits_shape hax
    obtain ⟨dz, zs, hzl, hz0, hz9⟩ := allDigits_shape haz
    rcases canon_nondigit_shape hy hay with hyl | ⟨f, fs, hyl, -, -, hf⟩
    · rw [hxl, hyl] at h1
      exact absurd rfl h1
    · rcases hf with hf | hf
      · rw [hxl, hyl, lexOrd_cons_gt (lt_of_lt_of_le hf hx0)] at h1
        exact absurd rfl h1
      · rw [hyl, hzl, lexOrd_cons_gt (lt_of_le_of_lt hz9 hf)] at h2
        exact absurd rfl h2
  · -- x and y numeric, z non-numeric: the head of z decides
    rw [rowLe_lex_of_right_none (jsParseInt_eq_none_of_canon hz haz)] at h2 ⊢
    rw [bne_gt_iff] at h2 ⊢
    obtain ⟨dx, xs, hxl, hx0, hx9⟩ := allDigits_shape hax
    obtain ⟨dy, ys, hyl, hy0, hy9⟩ := allDigits_shape hay
    rcases canon_nondigit_shape hz haz with hzl | ⟨f, fs, hzl, -, -, hf⟩
    · rw [hyl, hzl] at h2
      exact absurd rfl h2
    · rcases hf with hf | hf
      · rw [hyl, hzl, lexOrd_cons_gt (lt_of_lt_of_le hf hy0)] at h2
        exact absurd rfl h2
      · rw [hxl, hzl, lexOrd_cons_lt (lt_of_le_of_lt hx9 hf)]
        simp
  · -- all three numeric
    rw [rowLe_of_both_digits hax hay] at h1
    rw [rowLe_of_both_digits hay haz] at h2
    rw [rowLe_of_both_digits hax haz]
    rw [decide_eq_true_eq] at h1 h2
    rw [decide_eq_true_eq]
    omega

/-- On canonical row ids, parsing fully as a base-10 integer coincides with
being a pure digit string. -/
theorem specIsInt_eq_allDigits {s : String} (hc : canonRowId s = true) :
    specIsInt s = allDigits s := by
  cases hnd : allDigits s
  · rcases canon_nondigit_shape hc hnd with hsl | ⟨f, rest, hsl, hfp, hfm, hf⟩
    · simp only [specIsInt, hsl]
    · have hfd : isDigit10 f = false := by
        cases hfd : isDigit10 f
        · rfl
        · rcases hf with hf | hf
          · have := (isDigit10_iff.1 hfd).1
            exact absurd hf (not_lt.2 this)
          · have := (isDigit10_iff.1 hfd).2
            exact absurd hf (not_lt.2 this)
      simp only [specIsInt, hsl]
      rw [if_neg (by simp [hfm, hfp])]
      rw [hfd]
      rfl
  · unfold allDigits at hnd
    rw [Bool.and_eq_true] at hnd
    obtain ⟨hne, hall⟩ := hnd
    match hsl : s.toList with
    | [] => rw [hsl] at hne; simp at hne
    | d :: rest =>
        rw [hsl, List.all_cons, Bool.and_eq_true] at hall
        simp only [specIsInt, hsl]
        rw [if_neg (by simp [digit_ne hall.1 (by decide : isDigit10 '-' = false),
          digit_ne hall.1 (by decide : isDigit10 '+' = false)])]
        rw [hall.1, hall.2]
        rfl

/-- On a pure digit string, the claimed integer value is the decimal value
of the whole string. -/
theorem specIntVal_of_allDigits {s : String} (h : allDigits s = true) :
    specIntVal s = ((digitsVal 10 s.toList : Nat) : Int) := by
  unfold allDigits at h
  rw [Bool.and_eq_true] at h
  obtain ⟨hne, hall⟩ := h
  match hsl : s.toList with
  | [] => rw [hsl] at hne; simp at hne
  | d :: rest =>
      rw [hsl, List.all_cons, Bool.and_eq_true] at hall
      simp only [specIntVal, hsl]
      rw [if_neg (digit_ne hall.1 (by decide : isDigit10 '-' = false)),
        if_neg (digit_ne hall.1 (by decide : isDigit10 '+' = false))]

/-- On canonical row ids the code's comparator order and the claimed order
coincide. -/
theorem rowLe_eq_claimRowLe {x y : String} (hx : canonRowId x = true)
    (hy : canonRowId y = true) : rowLe x y = claimRowLe x y := by
  unfold claimRowLe
  rw [specIsInt_eq_allDigits hx, specIsInt_eq_allDigits hy]
  cases hax : allDigits x <;> cases hay : allDigits y
  · rw [rowLe_lex_of_left_none (jsParseInt_eq_none_of_canon hx hax)]
    simp
  · rw [rowLe_lex_of_left_none (jsParseInt_eq_none_of_canon hx hax)]
    simp
  · rw [rowLe_lex_of_right_none (jsParseInt_eq_none_of_canon hy hay)]
    simp
  · rw [rowLe_of_both_digits hax hay, specIntVal_of_allDigits hax,
      specIntVal_of_allDigits hay]
    simp

/-- Two-element instance of the stable sort. -/
theorem mergeSort_pair {α : Type} (le : α → α → Bool) (a b : α) :
    [a, b].mergeSort le = if le a b then [a, b] else [b, a] := by
  simp [List.mergeSort, List.merge]

/-- A sublist relation survives attaching a membership-derived fact to each
element. -/
theorem sublist_attachWith {α : Type} {P : α → Prop} :
    ∀ {s l : List α} (h : List.Sublist s l) (Hl : ∀ x ∈ l, P x),
      List.Sublist (s.attachWith P (fun x hx => Hl x (h.subset hx)))
        (l.attachWith P Hl)
  | _, _, .slnil, _ => List.Sublist.slnil
  | _, _, .cons a h, Hl => by
      rw [List.attachWith_cons]
      exact List.Sublist.cons _
        (sublist_attachWith h (fun x hx => Hl x (List.mem_cons_of_mem a hx)))
  | _, _, .cons₂ a h, Hl => by
      rw [List.attachWith_cons, List.attachWith_cons]
      exact List.Sublist.cons₂ _
        (sublist_attachWith h (fun x hx => Hl x (List.mem_cons_of_mem a hx)))

/-- The comparator, lifted to issues whose row ids are canonical. -/
def canonLe (p q : {i : DerivedIssue // canonRowId i.rowId = true}) : Bool :=
  issueLe p.val q.val

/-- The lifted comparator is transitive. -/
theorem canonLe_trans (p q w : {i : DerivedIssue // canonRowId i.rowId = true}) :
    canonLe p q → canonLe q w → canonLe p w := fun h1 h2 =>
  rowLe_trans_canon p.2 q.2 w.2 h1 h2

/-- The lifted comparator is total. -/
theorem canonLe_total (p q : {i : DerivedIssue // canonRowId i.rowId = true}) :
    canonLe p q || canonLe q p :=
  rowLe_total p.val.rowId q.val.rowId

/-- C1 (amended): for every report all of whose emitted row ids are
canonical — pure digit strings or strings starting with no digit, sign or
white space, such as the default "n/a" — the issue log is sorted in the
claimed order (numeric on pairs that parse as base-10 integers, otherwise
lexicographic, including mixed pairs) and the sort is stable: issues with
equal row ids keep their emission order. Without the canonical restriction
the claim fails, because `parseInt` accepts integer prefixes (see the
counterexample with row id "12abc"). -/
theorem C1_amended (r : AuditReport)
    (hcanon : ∀ i ∈ emittedIssues r, canonRowId i.rowId = true) :
    ((allIssues r).Pairwise (fun a b => claimRowLe a.rowId b.rowId = true)) ∧
    (∀ a b, List.Sublist [a, b] (emittedIssues r) → a.rowId = b.rowId →
      List.Sublist [a, b] (allIssues r)) := by
  have hmap : (((emittedIssues r).attachWith
        (fun i => canonRowId i.rowId = true) hcanon).mergeSort canonLe).map Subtype.val
      = allIssues r := by
    have hl : ∀ p ∈ (emittedIssues r).attachWith (fun i => canonRowId i.rowId = true) hcanon,
        ∀ q ∈ (emittedIssues r).attachWith (fun i => canonRowId i.rowId = true) hcanon,
        canonLe p q = issueLe p.val q.val := fun p _ q _ => rfl
    rw [List.map_mergeSort hl]
    rw [List.attachWith_map_subtype_val]
    rfl
  constructor
  · have hs := List.sorted_mergeSort canonLe_trans canonLe_total
      ((emittedIssues r).attachWith (fun i => canonRowId i.rowId = true) hcanon)
    have hp : (allIssues r).Pairwise (fun a b => issueLe a b = true) := by
      rw [← hmap, List.pairwise_map]
      exact hs
    refine hp.imp_of_mem ?_
    intro a b ha hb hab
    have ha' : canonRowId a.rowId = true := hcanon a ((allIssues_perm r).subset ha)
    have hb' : canonRowId b.rowId = true := hcanon b ((allIssues_perm r).subset hb)
    rw [show claimRowLe a.rowId b.rowId = rowLe a.rowId b.rowId from
      (rowLe_eq_claimRowLe ha' hb').symm]
    exact hab
  · intro a b hab heq
    have ha : canonRowId a.rowId = true := hcanon a (hab.subset (by simp))
    have hb : canonRowId b.rowId = true := hcanon b (hab.subset (by simp))
    have hlift := sublist_attachWith hab hcanon
    rw [List.attachWith_cons, List.attachWith_cons, List.attachWith_nil] at hlift
    have hab' : canonLe ⟨a, ha⟩ ⟨b, hb⟩ = true := by
      show rowLe a.rowId b.rowId = true
      rw [heq]
      exact rowLe_refl b.rowId
    have hsm := List.pair_sublist_mergeSort canonLe_trans canonLe_total hab' hlift
    have hfinal := hsm.map Subtype.val
    rw [hmap] at hfinal
    simpa using hfinal

/-- Missing-value entry whose sample rows carry the row ids "12abc" and
"3": `parseInt` extracts the prefix 12 from the former. -/
def cexReport : AuditReport where
  id := "rep-cex"
  summary :=
    { dataset_name := "ds", row_count := 20, column_count := 2
      created_at := "2024-01-01", engine_used := "pandas", issues_found := 2 }
  schema_results := []
  missing_values :=
    [{ column := "amount", missing_count := 2, missing_pct := 50
       sample_rows := some [[("__line__", "12abc")], [("__line__", "3")]] }]
  rule_results := []
  primary_key_result := none
  sample_rows := []

/-- C1 is refuted as stated: with row ids "12abc" and "3" the comparator
compares `parseInt` prefixes (12 vs 3) and puts "3" first, but neither
string-pair member fully parses as a base-10 integer, so the claim demands
lexicographic order ("12abc" before "3"); the log is therefore not sorted
in the claimed order. -/
theorem C1_counterexample :
    (allIssues cexReport).map DerivedIssue.rowId = ["3", "12abc"] ∧
    ¬ (allIssues cexReport).Pairwise (fun a b => claimRowLe a.rowId b.rowId = true) := by
  have hemit : emittedIssues cexReport =
      [{ rowId := "12abc", value := "NULL / Empty", errorType := "Missing Value"
         ruleOrColumn := "amount", severity := .error },
       { rowId := "3", value := "NULL / Empty", errorType := "Missing Value"
         ruleOrColumn := "amount", severity := .error }] := by
    decide
  have hall : allIssues cexReport =
      [{ rowId := "3", value := "NULL / Empty", errorType := "Missing Value"
         ruleOrColumn := "amount", severity := .error },
       { rowId := "12abc", value := "NULL / Empty", errorType := "Missing Value"
         ruleOrColumn := "amount", severity := .error }] := by
    unfold allIssues
    rw [hemit, mergeSort_pair, if_neg (by decide)]
  constructor
  · rw [hall]
    rfl
  · rw [hall]
    intro hcon
    have h := List.rel_of_pairwise_cons hcon (List.mem_cons_self _ _)
    exact absurd h (by decide)

/-- Report mixing rule, missing-value and primary-key issues whose row ids
are numeric strings and "n/a". -/
def c1DemoReport : AuditReport where
  id := "rep-c1"
  summary :=
    { dataset_name := "ds", row_count := 30, column_count := 3
      created_at := "2024-01-01", engine_used := "duckdb", issues_found := 5 }
  schema_results := []
  missing_values :=
    [{ column := "city", missing_count := 2, missing_pct := 20
       sample_rows := some [[("__line__", "10"), ("city", "")], [("city", "")]] }]
  rule_results :=
    [{ name := "age_range", severity := .warning, passed := false, failing_rows := 2
       sample_rows := some [[("__line__", "2"), ("age", "210")]]
       description := none }]
  primary_key_result := some
    { columns := ["id"]
      duplicate_count := 1
      null_count := 1
      sample_rows := [[("__line__", "7"), ("id", "5")], [("id", "")]] }
  sample_rows := []

/-- Witness for the amended C1 at a concrete report with row ids "2", "10",
"n/a", "7" and "n/a": every row id is canonical, so the log is sorted in
the claimed order and stable. -/
theorem C1_amended_witness :
    (∀ i ∈ emittedIssues c1DemoReport, canonRowId i.rowId = true) ∧
    (((allIssues c1DemoReport).Pairwise
        (fun a b => claimRowLe a.rowId b.rowId = true)) ∧
      (∀ a b, List.Sublist [a, b] (emittedIssues c1DemoReport) → a.rowId = b.rowId →
        List.Sublist [a, b] (allIssues c1DemoReport))) :=
  ⟨by decide, C1_amended c1DemoReport (by decide)⟩

end DQ
